import Mathlib

/-!
Verification of the certificate-sharing worker and monitor
(`certificate-worker.js`, `certificate-monitor.js`).

The JavaScript source is shallowly embedded: pure fragments become Lean
functions over `String`/`Nat`/`List`; remote (Google Drive / Sheets) calls
become oracle parameters of type `Nat → ... → Except ApiError α` indexed by a
call counter; wall-clock elements (timestamps, elapsed milliseconds, the 30 s
search timeout) are abstracted into parameters or a fuel argument, and string
interpolation of timestamps/durations inside log messages is abstracted into
tagged constructors.  JavaScript strings are modelled as Lean `String`
(`charCodeAt` as the character's code point, which agrees on the BMP);
`toLowerCase`/`toUpperCase` act on ASCII letters as in the source's data.
JavaScript truthiness of a string value is modelled as `≠ ""`.
-/

namespace CertShare

/-! ## JavaScript string primitives -/

/-- The characters matched by the JavaScript `\s` class (ASCII part). -/
def jsIsSpace (c : Char) : Bool :=
  c = ' ' || c = '\t' || c = '\n' || c = '\r' || c = '\x0b' || c = '\x0c'

/-- JavaScript `String.prototype.trim`. -/
def jsTrim (s : String) : String :=
  String.mk (((s.data.dropWhile jsIsSpace).reverse.dropWhile jsIsSpace).reverse)

/-- JavaScript `String.prototype.toLowerCase` (ASCII). -/
def jsToLower (s : String) : String := String.mk (s.data.map Char.toLower)

/-- JavaScript `String.prototype.toUpperCase` (ASCII). -/
def jsToUpper (s : String) : String := String.mk (s.data.map Char.toUpper)

/-- JavaScript `String.prototype.includes`: substring containment. -/
def jsIncludes (hay needle : String) : Bool :=
  (List.range (hay.data.length + 1)).any fun i => needle.data.isPrefixOf (hay.data.drop i)

/-- JavaScript `String.prototype.endsWith`. -/
def jsEndsWith (hay suffixStr : String) : Bool :=
  suffixStr.data.isSuffixOf hay.data

/-- The `.replace(/\s+/g, ' ')` normalization: collapse whitespace runs to a single space.
`prevSpace` records whether the previous character belonged to a run already
replaced. -/
def collapseWsGo : Bool → List Char → List Char
  | _, [] => []
  | prevSpace, c :: cs =>
    if jsIsSpace c then
      if prevSpace then collapseWsGo true cs
      else ' ' :: collapseWsGo true cs
    else c :: collapseWsGo false cs

def collapseWs (s : String) : String := String.mk (collapseWsGo false s.data)

/-- The JavaScript `\w` class `[A-Za-z0-9_]`. -/
def isWordChar (c : Char) : Bool :=
  ('a' ≤ c && c ≤ 'z') || ('A' ≤ c && c ≤ 'Z') || ('0' ≤ c && c ≤ '9') || c = '_'

/-- One step of `.replace(/\b(w1|w2|...)\b/gi, '')`: because every alternative
is a run of word characters bracketed by `\b`, a match is exactly a maximal
word-character run equal (case-insensitively) to one of the alternatives; such
runs are deleted.  `acc` is the current word run, reversed. -/
def stripRunsAux (hs : List String) : List Char → List Char → List Char
  | acc, [] =>
    let run := acc.reverse
    if hs.contains (String.mk (run.map Char.toLower)) then [] else run
  | acc, c :: cs =>
    if isWordChar c then stripRunsAux hs (c :: acc) cs
    else
      let run := acc.reverse
      (if hs.contains (String.mk (run.map Char.toLower)) then [] else run)
        ++ c :: stripRunsAux hs [] cs

def stripRuns (hs : List String) (s : String) : String :=
  String.mk (stripRunsAux hs [] s.data)

/-- The `.replace(/[\.,-]/g, ' ')` normalization. -/
def replaceSpecial (s : String) : String :=
  String.mk (s.data.map fun c => if c = '.' || c = ',' || c = '-' then ' ' else c)

/-! ## djb2 hash (`hashKey`, certificate-worker.js lines 77–86)

`hash = ((hash << 5) + hash) + s.charCodeAt(i); hash = hash | 0` keeps the
value in 32-bit two's complement, and the final `>>> 0` reinterprets it as an
unsigned 32-bit integer; working with the residue modulo `2^32` throughout is
exact. -/

def hashKeyStep (h : Nat) (c : Char) : Nat := (h * 33 + c.toNat) % 4294967296

def hashKey (s : String) : Nat := s.data.foldl hashKeyStep 5381

/-- The spec's `owningSlot(key, totalSlots)`: `hashKey(key) % totalSlots`
(certificate-worker.js line 927). -/
def owningSlot (key : String) (totalSlots : Nat) : Nat := hashKey key % totalSlots

/-! ## Error model and retry loops -/

/-- A Google API error, as inspected by the worker: `status` is
`error.response.status || error.code` (absent modelled as `none`), `reasons`
is the list `error.response.data.error.errors[*].reason`, `message` the
human-readable message. -/
structure ApiError where
  status : Option Nat
  reasons : List String
  message : String
deriving DecidableEq, Repr

/-- The classifier `isRetryableRateLimit` (certificate-worker.js lines 118–131).  The
`reason` read is `errors[0].reason || ''`. -/
def isRetryableRateLimit (e : ApiError) : Bool :=
  let reason := e.reasons.headD ""
  match e.status with
  | some 429 => true
  | some 403 =>
      jsIncludes reason "rateLimitExceeded" ||
      jsIncludes reason "userRateLimitExceeded" ||
      jsIncludes reason "sharingRateLimitExceeded"
  | _ => false

/-- An error wrapped by `wrapError(op, ctx, error)`: the operation name and
the `{ fileId, email, role }` context are attached. -/
structure WErr where
  op : String
  fileId : String
  email : String
  role : String
  orig : ApiError
deriving DecidableEq, Repr

/-- The shared shape of the worker's retry loops (`hasPermission`,
`grantPermission`): repeatedly call the API; on an error increment `attempt`
and retry iff `isRetryableRateLimit(error) && attempt < maxAttempts`, sleeping
`min(capMs, 2^attempt * 1000) + jitter` first; otherwise propagate.

`remaining` is the invariant `maxAttempts - attempt` (so the code's
post-increment guard `attempt + 1 < maxAttempts` is `1 < remaining`);
`attempt` counts previous failures and indexes the oracle; `jit attempt` is
the `Math.floor(Math.random() * 500)` jitter of that backoff.  Returns the
number of API calls issued, the list of backoff sleeps (in ms), and the final
outcome. -/
def retryGo (oracle : Nat → Except ApiError α) (capMs : Nat) (jit : Nat → Nat) :
    Nat → Nat → Nat × List Nat × Except ApiError α
  | 0, attempt =>
    match oracle attempt with
    | .ok a => (1, [], .ok a)
    | .error e => (1, [], .error e)
  | r + 1, attempt =>
    match oracle attempt with
    | .ok a => (1, [], .ok a)
    | .error e =>
      if isRetryableRateLimit e && decide (0 < r) then
        let s := min capMs (2 ^ (attempt + 1) * 1000) + jit (attempt + 1)
        let rec2 := retryGo oracle capMs jit r (attempt + 1)
        (rec2.1 + 1, s :: rec2.2.1, rec2.2.2)
      else (1, [], .error e)

/-- Result of `grantPermission`. -/
inductive GrantData where
  | dryRunStatus   -- the `{ status: 'DRY_RUN' }` early return
  | created        -- `response.data` of a real `permissions.create`
deriving DecidableEq, Repr

structure GrantOut where
  calls : Nat
  sleeps : List Nat
  result : Except WErr GrantData
deriving Repr

/-- The mutation `grantPermission(fileId, email)` (certificate-worker.js lines 789–826):
in dry-run mode return `DRY_RUN` without any API call; otherwise retry
`permissions.create` with `maxAttempts = 6` and a 60 s backoff cap, and
propagate a final error wrapped as `drive.permissions.create` with the
`{ fileId, email, role }` context. -/
def grantPermission (dryRun : Bool) (oracle : Nat → Except ApiError Unit)
    (jit : Nat → Nat) (fileId email : String) : GrantOut :=
  if dryRun then ⟨0, [], .ok .dryRunStatus⟩
  else
    let r := retryGo oracle 60000 jit 6 0
    match r.2.2 with
    | .ok _ => ⟨r.1, r.2.1, .ok .created⟩
    | .error e =>
        ⟨r.1, r.2.1, .error ⟨"drive.permissions.create", fileId, email, "reader", e⟩⟩

/-- One entry of `permissions.list`'s response (`permissions(emailAddress,role)`);
an absent `emailAddress` is the falsy `""`. -/
structure Perm where
  emailAddress : String
  role : String
deriving DecidableEq, Repr

/-- The match predicate inside `hasPermission` (certificate-worker.js lines
768–770): `p.emailAddress && p.emailAddress.toLowerCase() === email.toLowerCase()
&& p.role === role`. -/
def permMatches (email role : String) (p : Perm) : Bool :=
  p.emailAddress ≠ "" && jsToLower p.emailAddress == jsToLower email && p.role == role

structure PermCheckOut where
  result : Bool
  calls : Nat
deriving DecidableEq, Repr

/-- The check `hasPermission(fileId, email, role)` (certificate-worker.js lines
755–786): retry `permissions.list` with `maxAttempts = 5` and a 60 s backoff
cap; on success answer whether some listed permission matches; the outer
`catch` turns any propagated error (non-retryable, or retries exhausted) into
`false`.  `fileId` does not influence the modelled oracle. -/
def hasPermission (oracle : Nat → Except ApiError (List Perm)) (jit : Nat → Nat)
    (email role : String) : PermCheckOut :=
  let r := retryGo oracle 60000 jit 5 0
  match r.2.2 with
  | .ok perms => ⟨perms.any (permMatches email role), r.1⟩
  | .error _ => ⟨false, r.1⟩

/-! ## Resource resolver (`findFolderByName` and helpers)

The folder mapping is the parsed `cache/folder-mapping.json`: an association
list of (name, folderId) entries (a JS object has unique keys; `List.lookup`
returns the entry for a key).  `this.folderMapping[k]` yields `undefined` for
an absent key, and the code only tests truthiness, so absent and `""` are
modelled alike by `jsLookup` returning `""`. -/

def jsLookup (m : List (String × String)) (k : String) : String :=
  match m.lookup k with
  | some v => v
  | none => ""

/-- The helper `_createSearchVariations(name)` (certificate-worker.js lines 562–590):
a `Set` (insertion-ordered, deduplicated) of the original name, case variants,
a whitespace-normalized form, an honorific-stripped form and a
punctuation-stripped form, filtered to non-empty strings. -/
def searchVariationHonorifics : List String :=
  ["muhammad", "moh", "drs", "dr", "prof", "hj", "h"]

def dedupAppend (acc : List String) (x : String) : List String :=
  if acc.contains x then acc else acc ++ [x]

def createSearchVariations (name : String) : List String :=
  let normalized := jsTrim (collapseWs name)
  let withoutPrefixes := jsTrim (collapseWs (stripRuns searchVariationHonorifics name))
  let withoutSpecialChars := jsTrim (collapseWs (replaceSpecial name))
  let base := [name, jsToLower name, jsToUpper name, normalized, jsToLower normalized]
  let base := base ++
    (if withoutPrefixes ≠ "" && withoutPrefixes ≠ name then
      [withoutPrefixes, jsToLower withoutPrefixes] else [])
  let base := base ++
    (if withoutSpecialChars ≠ "" && withoutSpecialChars ≠ name then
      [withoutSpecialChars, jsToLower withoutSpecialChars] else [])
  (base.foldl dedupAppend []).filter fun v => v.length > 0

/-- The variation loop of the mapping lookup (certificate-worker.js lines
536–543): for each variation try `mapping[v] || mapping[v.toLowerCase()]`,
stopping at the first truthy hit. -/
def lookupVariations (m : List (String × String)) : List String → String
  | [] => ""
  | v :: vs =>
    let hit := jsLookup m v
    let hit := if hit ≠ "" then hit else jsLookup m (jsToLower v)
    if hit ≠ "" then hit else lookupVariations m vs

/-- The whole mapping-lookup chain of `findFolderByName` (lines 526–543):
exact key, lowercased key, then the generated variations. -/
def mappingLookup (m : List (String × String)) (targetName : String) : String :=
  let exact := jsLookup m targetName
  if exact ≠ "" then exact
  else
    let lower := jsLookup m (jsToLower targetName)
    if lower ≠ "" then lower
    else lookupVariations m (createSearchVariations targetName)

/-- A folder as returned by `drive.files.list` (`files(id,name,...)`). -/
structure DFolder where
  id : String
  name : String
deriving DecidableEq, Repr

/-- The match selection of the global fallback search (lines 663–672): prefer
an exact case-insensitive name match, else a containment fuzzy match in either
direction. -/
def globalFindMatch (files : List DFolder) (targetLower : String) : Option DFolder :=
  match files.find? (fun f => jsToLower f.name == targetLower) with
  | some f => some f
  | none =>
    files.find? fun f =>
      let folderName := jsToLower f.name
      jsIncludes folderName targetLower || jsIncludes targetLower folderName

/-- The search-variation list built inside `_findFolderByNameInternal`
(lines 635–643); note it differs from `_createSearchVariations`: a plain
array (no dedup), no `hj|h` honorifics and no whitespace collapse on the
honorific-stripped entry. -/
def internalVariations (targetName : String) : List String :=
  [targetName, jsToLower targetName, jsToUpper targetName,
   jsTrim (collapseWs targetName),
   jsTrim (stripRuns ["muhammad", "moh", "drs", "dr", "prof"] targetName)].filter
    fun v => v.length > 0

/-- The per-variation attempt loop of the global fallback search (lines
651–690): up to `maxAttempts = 3` calls of `files.list` for one search term;
a response with a match returns it, a response without a match breaks to the
next variation, a retryable error backs off and retries while
`attempt + 1 < 3`, and any other error breaks to the next variation.

The oracle is indexed by a global call counter and by the search term the
query was built from (the `name contains '...'` query string itself is
presentational).  One unit of `fuel` pays for one API call; exhausted fuel
(`none`) models the 30 s overall timeout firing while the search is still
running.  On completion returns the per-term result together with the
remaining fuel and the advanced call counter. -/
def globalTermLoop (oracle : Nat → String → Except ApiError (List DFolder))
    (targetLower term : String) :
    Nat → Nat → Nat → Option (Option String × Nat × Nat)
  | _, 0, _ => none
  | attempt, fuel + 1, calls =>
    if attempt < 3 then
      match oracle calls term with
      | .ok files =>
        match globalFindMatch files targetLower with
        | some m => some (some m.id, fuel, calls + 1)
        | none => some (none, fuel, calls + 1)
      | .error e =>
        if isRetryableRateLimit e && decide (attempt + 1 < 3) then
          globalTermLoop oracle targetLower term (attempt + 1) fuel (calls + 1)
        else some (none, fuel, calls + 1)
    else some (none, fuel + 1, calls)

/-- The variation loop of the global fallback search (lines 645–694). -/
def globalTermsLoop (oracle : Nat → String → Except ApiError (List DFolder))
    (targetLower : String) :
    List String → Nat → Nat → Option (Except ApiError (Option String))
  | [], _, _ => some (.ok none)
  | t :: ts, fuel, calls =>
    match globalTermLoop oracle targetLower t 0 fuel calls with
    | none => none
    | some (some id, _, _) => some (.ok (some id))
    | some (none, fuel', calls') => globalTermsLoop oracle targetLower ts fuel' calls'

/-- The breadth-first traversal of `_findFolderByNameInternal` when a parent
folder is given (lines 701–751).  `listSubfolders` (the fully drained
pagination of one node's children) is the oracle and may throw; the per-node
`catch` requeues the node on a retryable error and skips the branch
otherwise.  The queue holds `(folderId, depth)` pairs; `maxDepth = 3`.  One
unit of fuel pays for one loop iteration; `none` models the 30 s timeout
firing while the traversal is still running. -/
def bfsGo (oracle : Nat → String → Except ApiError (List DFolder))
    (targetLower : String) :
    Nat → List (String × Nat) → Nat → Option (Except ApiError (Option String))
  | 0, _, _ => none
  | _ + 1, [], _ => some (.ok none)
  | fuel + 1, (id, depth) :: rest, calls =>
    if depth > 3 then bfsGo oracle targetLower fuel rest calls
    else
      match oracle calls id with
      | .ok children =>
        match children.find? (fun f => jsToLower f.name == targetLower) with
        | some hit => some (.ok (some hit.id))
        | none =>
          let queue :=
            if depth < 3 then rest ++ children.map (fun c => (c.id, depth + 1))
            else rest
          bfsGo oracle targetLower fuel queue (calls + 1)
      | .error e =>
        if isRetryableRateLimit e then
          bfsGo oracle targetLower fuel (rest ++ [(id, depth)]) (calls + 1)
        else bfsGo oracle targetLower fuel rest (calls + 1)

/-- The search `_findFolderByNameInternal(name, parentFolderId)` (lines 625–752).
`parentFolderId` is a string, with `""` as the falsy "no parent".  Result
`none` means the computation was still running when the 30 s timeout fired;
`some (.ok r)` is a normal return; `some (.error e)` would be an uncaught
exception (shown below never to occur). -/
def findFolderByNameInternal (globalOracle childOracle : Nat → String → Except ApiError (List DFolder))
    (name parentFolderId : String) (fuel : Nat) :
    Option (Except ApiError (Option String)) :=
  let targetName := name
  let targetLower := jsToLower targetName
  if targetName = "" then some (.ok none)
  else if parentFolderId = "" then
    globalTermsLoop globalOracle targetLower (internalVariations targetName) fuel 0
  else
    bfsGo childOracle targetLower fuel [(parentFolderId, 0)] 0

/-- The wrapper `_findFolderByNameFallback(name, parentFolderId)` (lines 594–622):
race the internal search against the 30 s timeout; the `catch` maps a timeout
rejection — or any error the internal search were to throw — to `null`. -/
def findFolderByNameFallback (globalOracle childOracle : Nat → String → Except ApiError (List DFolder))
    (name parentFolderId : String) (fuel : Nat) : Option String :=
  match findFolderByNameInternal globalOracle childOracle name parentFolderId fuel with
  | none => none
  | some (.ok r) => r
  | some (.error _) => none

/-- The resolver `findFolderByName(name, parentFolderId)` (lines 520–559).  The first
component is the returned folder id (or `null`); the second records whether
the API-search fallback was invoked.  `mapping = none` models
`this.folderMapping` being `null` (mapping file never loaded). -/
def findFolderByName (mapping : Option (List (String × String)))
    (globalOracle childOracle : Nat → String → Except ApiError (List DFolder))
    (name parentFolderId : String) (fuel : Nat) : Option String × Bool :=
  let targetName := name
  if targetName = "" then (none, false)
  else
    match mapping with
    | some m =>
      let folderId := mappingLookup m targetName
      if folderId ≠ "" then (some folderId, false)
      else
        (findFolderByNameFallback globalOracle childOracle name parentFolderId fuel, true)
    | none =>
      (findFolderByNameFallback globalOracle childOracle name parentFolderId fuel, true)

/-! ## Batch processor (`processParticipants`) -/

/-- One spreadsheet row as assembled by `getSpreadsheetDataFlexible`
(certificate-worker.js lines 498–506); absent cells are `''`. -/
structure Participant where
  rowIndex : Nat
  nama : String
  email : String
  folderId : String
  isShared : String
  isFolderExists : String
  lastLog : String
deriving DecidableEq, Repr

/-- The normalization map (lines 907–911): trim the name, trim and lowercase
the email. -/
def normalizeP (p : Participant) : Participant :=
  { p with nama := jsTrim p.nama, email := jsToLower (jsTrim p.email) }

/-- The normalization filter (line 911): `p.nama && p.email`. -/
def normalizedOf (ps : List Participant) : List Participant :=
  (ps.map normalizeP).filter fun p => p.nama ≠ "" && p.email ≠ ""

/-- The tri-state eligibility gate (lines 915–918): keep a record iff the
lowercased `isShared` value is neither `"true"` nor `"false"`. -/
def statusGate (p : Participant) : Bool :=
  let isSharedValue := jsToLower p.isShared
  isSharedValue ≠ "true" && isSharedValue ≠ "false"

def statusFiltered (ps : List Participant) : List Participant :=
  (normalizedOf ps).filter statusGate

/-- The shard key (line 925): the `FolderId` when truthy (case-sensitive),
else the lowercased name. -/
def shardKey (p : Participant) : String :=
  if p.folderId ≠ "" then p.folderId else jsToLower p.nama

/-- The sharding filter (lines 921–930): applied only when `shardTotal > 0`;
with `shardTotal == 0` the list is untouched. -/
def applySharding (shardTotal shardIndex : Nat) (ps : List Participant) :
    List Participant :=
  if shardTotal > 0 then
    ps.filter fun p => hashKey (shardKey p) % shardTotal == shardIndex
  else ps

/-- The prioritization (lines 937–942): pre-resolved folder ids first, then
records not previously marked folder-not-found, then the problematic rest. -/
def prioritize (ps : List Participant) : List Participant :=
  let withFolderId := ps.filter fun p => p.folderId ≠ ""
  let needsSearch := ps.filter fun p =>
    p.folderId = "" && jsToLower p.isFolderExists ≠ "false"
  let problematic := ps.filter fun p =>
    p.folderId = "" && jsToLower p.isFolderExists == "false"
  withFolderId ++ needsSearch ++ problematic

/-- The whole read→normalize→gate→shard→prioritize→cap pipeline
(lines 905–945) producing `workingParticipants`. -/
def pipeline (shardTotal shardIndex maxPerRun : Nat) (ps : List Participant) :
    List Participant :=
  (prioritize (applySharding shardTotal shardIndex (statusFiltered ps))).take maxPerRun

/-! ### Email validation (line 970)

`/^[a-zA-Z0-9._%+-]+@[a-zA-Z0-9.-]+\.[a-zA-Z]{2,}$/` -/

def isLocalChar (c : Char) : Bool :=
  ('a' ≤ c && c ≤ 'z') || ('A' ≤ c && c ≤ 'Z') || ('0' ≤ c && c ≤ '9') ||
  c = '.' || c = '_' || c = '%' || c = '+' || c = '-'

def isDomChar (c : Char) : Bool :=
  ('a' ≤ c && c ≤ 'z') || ('A' ≤ c && c ≤ 'Z') || ('0' ≤ c && c ≤ '9') ||
  c = '.' || c = '-'

def isAsciiLetter (c : Char) : Bool :=
  ('a' ≤ c && c ≤ 'z') || ('A' ≤ c && c ≤ 'Z')

/-- The domain part `[a-zA-Z0-9.-]+\.[a-zA-Z]{2,}$`: some split into a
non-empty `[a-zA-Z0-9.-]+` prefix, a literal dot, and a trailing run of at
least two letters. -/
def domainMatch (dom : List Char) : Bool :=
  (List.range dom.length).any fun i =>
    decide (0 < i) && (dom.take i).all isDomChar && (dom.getD i ' ' == '.') &&
    (dom.drop (i + 1)).all isAsciiLetter && decide (i + 3 ≤ dom.length)

/-- The anchored email regular expression.  The local class excludes `@`, so
a valid address splits at its first `@`. -/
def emailRegexTest (s : String) : Bool :=
  let cs := s.data
  let loc := cs.takeWhile (· ≠ '@')
  let rest := cs.dropWhile (· ≠ '@')
  match rest with
  | [] => false
  | _ :: dom => decide (loc ≠ []) && loc.all isLocalChar && domainMatch dom

/-- The `isGmail` check (line 972). -/
def isGmail (email : String) : Bool :=
  jsEndsWith (jsToLower email) "@gmail.com"

/-! ### Per-record side effects and outcomes

A spreadsheet cell write performed through `updateCellByIndex`/`updateCell`
is recorded as an attempted write.  Free-text `LastLog` values carry a
timestamp and elapsed durations, both wall-clock; they are abstracted into a
tagged message carrying the data the code interpolates. -/

inductive LogMsg where
  | skipReason (reason email : String)      -- `SKIP: ${reason} '${email}' ...`
  | skipDuplicate                           -- `SKIP: Duplicate entry ...`
  | skipAlreadyShared                       -- `SKIP: Already shared ...`
  | folderNotFound (nama : String)          -- `FOLDER NOT FOUND: '${nama}' ...`
  | skipAlreadyHas (role : String)          -- `SKIP: Already has ${role} access ...`
  | grantDone (status role email : String)  -- `${status} ${role} → ${email} ...`
  | errorText (friendly : String)           -- `ERROR: ${friendlyMessage} ...`
deriving DecidableEq, Repr

inductive SheetWrite where
  | isSharedW (v : String)
  | isFolderExistsW (v : String)
  | folderIdW (v : String)
  | lastLogW (m : LogMsg)
deriving DecidableEq, Repr

/-- The user-friendly message selection of the per-record error handler
(certificate-worker.js lines 1128–1145). -/
def friendlyMessage (e : ApiError) (email : String) : String :=
  match e.status with
  | some 403 =>
    if e.reasons.contains "cannotInviteNonGoogleUser" then
      "Email " ++ email ++ " tidak memiliki Google Account aktif atau tidak dapat diundang"
    else if e.reasons.contains "sharingRateLimitExceeded" then
      "Rate limit tercapai untuk sharing, coba lagi nanti"
    else if e.reasons.contains "permissionDenied" then
      "Tidak ada izin untuk membagikan folder ini"
    else "Akses ditolak: " ++ e.message
  | some 404 => "Folder tidak ditemukan atau telah dihapus"
  | some 429 => "Terlalu banyak permintaan, coba lagi nanti"
  | _ => if e.message ≠ "" then e.message else "Error tidak diketahui"

inductive Outcome where
  | skipInvalid (reason : String)   -- invalid format / not Gmail
  | skipDuplicate
  | skipAlreadyShared
  | errFolderNotFound
  | skipAlreadyHas
  | granted
  | dryRunDone
  | errGrant (e : WErr)
deriving DecidableEq, Repr

structure ProcRes where
  outcome : Outcome
  writes : List SheetWrite     -- attempted spreadsheet writes, in order
  logCount : Nat               -- `writeLog` lines appended for this record
  grantInvoked : Bool          -- whether `grantPermission` was entered
  grantApiCalls : Nat          -- `permissions.create` API calls issued
  fallbackSearch : Bool        -- whether the resolver used the API fallback
  seenAfter : List String      -- the dedup set after this record
deriving Repr

/-- The per-worker environment: configuration plus the oracles standing for
the remote services.  Oracles are per-record behaviours (each record's
processing restarts the call counters). -/
structure Env where
  mapping : Option (List (String × String))
  parentFolderId : String
  dryRun : Bool
  shardTotal : Nat
  shardIndex : Nat
  maxPerRun : Nat
  globalOracle : Nat → String → Except ApiError (List DFolder)
  childOracle : Nat → String → Except ApiError (List DFolder)
  searchFuel : Nat
  permOracle : Nat → Except ApiError (List Perm)
  permJit : Nat → Nat
  grantOracle : Nat → Except ApiError Unit
  grantJit : Nat → Nat

/-- The folder resolution step (lines 1025–1031): use the pre-filled
`FolderId` when truthy, else call `findFolderByName`. -/
def resolveFolder (env : Env) (p : Participant) : Option String × Bool :=
  if p.folderId ≠ "" then (some p.folderId, false)
  else findFolderByName env.mapping env.globalOracle env.childOracle
        p.nama env.parentFolderId env.searchFuel

/-- The duplicate-detection key (line 995):
`${nama.toLowerCase()}|${email}`. -/
def dedupKey (p : Participant) : String := jsToLower p.nama ++ "|" ++ p.email

/-- One iteration of the participant loop (certificate-worker.js lines
957–1164), for an already-normalized record: email validation → duplicate
detection → already-shared gate → folder resolution → permission check →
grant, with the attempted writes and log lines of the branch taken.  `seen`
is the duplicate-detection set accumulated in this cycle. -/
def processOne (env : Env) (seen : List String) (p : Participant) : ProcRes :=
  let isValidEmail := emailRegexTest p.email
  if !(isValidEmail && isGmail p.email) then
    let reason := if !isValidEmail then "INVALID EMAIL FORMAT" else "NOT GMAIL ACCOUNT"
    { outcome := .skipInvalid reason
      writes := [.isSharedW "FALSE", .lastLogW (.skipReason reason p.email)]
      logCount := 1, grantInvoked := false, grantApiCalls := 0
      fallbackSearch := false, seenAfter := seen }
  else
    let key := dedupKey p
    if seen.contains key then
      { outcome := .skipDuplicate
        writes := [.lastLogW .skipDuplicate]
        logCount := 1, grantInvoked := false, grantApiCalls := 0
        fallbackSearch := false, seenAfter := seen }
    else
      let seen := seen ++ [key]
      if p.isShared ≠ "" && jsToLower p.isShared == "true" then
        { outcome := .skipAlreadyShared
          writes := [.lastLogW .skipAlreadyShared]
          logCount := 1, grantInvoked := false, grantApiCalls := 0
          fallbackSearch := false, seenAfter := seen }
      else
        let res := resolveFolder env p
        match res.1 with
        | none =>
          { outcome := .errFolderNotFound
            writes := [.isFolderExistsW "FALSE", .lastLogW (.folderNotFound p.nama)]
            logCount := 1, grantInvoked := false, grantApiCalls := 0
            fallbackSearch := res.2, seenAfter := seen }
        | some folderId =>
          let preWrites := SheetWrite.isFolderExistsW "TRUE" ::
            (if p.folderId = "" then [SheetWrite.folderIdW folderId] else [])
          let hp := hasPermission env.permOracle env.permJit p.email "reader"
          if hp.result then
            { outcome := .skipAlreadyHas
              writes := preWrites ++
                [.isSharedW "TRUE", .lastLogW (.skipAlreadyHas "reader"), .isSharedW "TRUE"]
              logCount := 1, grantInvoked := false, grantApiCalls := 0
              fallbackSearch := res.2, seenAfter := seen }
          else
            let g := grantPermission env.dryRun env.grantOracle env.grantJit folderId p.email
            match g.result with
            | .ok _ =>
              let status := if env.dryRun then "DRY_RUN" else "GRANTED"
              { outcome := if env.dryRun then .dryRunDone else .granted
                writes := preWrites ++
                  [.isSharedW "TRUE", .lastLogW (.grantDone status "reader" p.email)]
                logCount := 1, grantInvoked := true, grantApiCalls := g.calls
                fallbackSearch := res.2, seenAfter := seen }
            | .error we =>
              { outcome := .errGrant we
                writes := preWrites ++
                  [.isSharedW "FALSE", .lastLogW (.errorText (friendlyMessage we.orig p.email))]
                logCount := 1, grantInvoked := true, grantApiCalls := g.calls
                fallbackSearch := res.2, seenAfter := seen }

/-- The participant loop threaded over the dedup set. -/
def processCycleGo (env : Env) : List Participant → List String → List ProcRes
  | [], _ => []
  | p :: rest, seen =>
    let r := processOne env seen p
    r :: processCycleGo env rest r.seenAfter

/-- One whole processing cycle: the pipeline of filters followed by the
participant loop. -/
def processCycle (env : Env) (ps : List Participant) : List ProcRes :=
  processCycleGo env (pipeline env.shardTotal env.shardIndex env.maxPerRun ps) []

/-- The writer `updateCell` (lines 828–843) is best-effort: a failed write produces a
console warning and a normal return, so each attempted write goes through
regardless of the fate of the others.  `ok i` tells whether the `i`-th write
physically succeeded; the attempt list itself never depends on it. -/
def attemptWrites (ws : List SheetWrite) (ok : Nat → Bool) : List (SheetWrite × Bool) :=
  (ws.enum).map fun wi => (wi.2, ok wi.1)

/-- Recognize a `LastLog`-column write. -/
def isLastLogW : SheetWrite → Bool
  | .lastLogW _ => true
  | _ => false

/-- Recognize a status-column (`isShared`) write. -/
def isStatusW : SheetWrite → Bool
  | .isSharedW _ => true
  | _ => false

/-- The outcomes whose branch attempts a status-column (`isShared`) write:
the invalid-email skip, the already-has-access skip, a (dry-run) grant, and
the error handler — but not the duplicate skip, the already-shared skip or
the folder-not-found branch. -/
def statusOutcome : Outcome → Bool
  | .skipInvalid _ => true
  | .skipAlreadyHas => true
  | .granted => true
  | .dryRunDone => true
  | .errGrant _ => true
  | .skipDuplicate => false
  | .skipAlreadyShared => false
  | .errFolderNotFound => false

/-! ## Log-tailing monitor (`CertificateWorkerMonitor.parseLogFile`,
certificate-monitor.js lines 178–264)

The outcome-line regular expressions are embedded as matchers.  In each
pattern every quantified class is followed by a class or literal disjoint
from it (`\d+\s+`, `\w+\s+`, `[^\s]+\s+-` …), so greedy maximal munch is
equivalent to the backtracking regex semantics; the one lazy part,
`SKIP\b.*?:` (where `.` does not cross a newline), is an explicit search over
the possible colon positions. -/

def jsIsDigit (c : Char) : Bool := '0' ≤ c && c ≤ '9'

/-- Consume one-or-more characters of class `p` (a `+` quantifier). -/
def eatPlus (p : Char → Bool) (cs : List Char) : Option (List Char) :=
  if (cs.takeWhile p).isEmpty then none else some (cs.dropWhile p)

/-- Consume a literal. -/
def eatLit (lit : String) (cs : List Char) : Option (List Char) :=
  if lit.data.isPrefixOf cs then some (cs.drop lit.data.length) else none

/-- Consume `Row\s+\d+\s+` — the shared prefix of the three outcome patterns. -/
def eatRowPrefix (cs : List Char) : Option (List Char) := do
  let cs ← eatLit "Row" cs
  let cs ← eatPlus jsIsSpace cs
  let cs ← eatPlus jsIsDigit cs
  eatPlus jsIsSpace cs

/-- Match the success pattern
`Row\s+\d+\s+(GRANTED|DRY_RUN)\s+\w+\s+->\s+([^\s]+)\s+-` at the head of
`cs`. -/
def matchSuccessAt (cs : List Char) : Bool :=
  (do
    let cs ← eatRowPrefix cs
    let cs ← match eatLit "GRANTED" cs with
             | some r => some r
             | none => eatLit "DRY_RUN" cs
    let cs ← eatPlus jsIsSpace cs
    let cs ← eatPlus isWordChar cs
    let cs ← eatPlus jsIsSpace cs
    let cs ← eatLit "->" cs
    let cs ← eatPlus jsIsSpace cs
    let cs ← eatPlus (fun c => !jsIsSpace c) cs
    let cs ← eatPlus jsIsSpace cs
    eatLit "-" cs).isSome

/-- The tail `:\s+([^\s\|]+)(?:\|[^\s]+)?\s+-` of the skip pattern, at a colon. -/
def skipTailAt (cs : List Char) : Bool :=
  (do
    let cs ← eatLit ":" cs
    let cs ← eatPlus jsIsSpace cs
    let cs ← eatPlus (fun c => !jsIsSpace c && c ≠ '|') cs
    let cs ← match cs with
             | '|' :: cs2 => eatPlus (fun c => !jsIsSpace c) cs2
             | _ => some cs
    let cs ← eatPlus jsIsSpace cs
    eatLit "-" cs).isSome

/-- Search for the colon of `SKIP\b.*?:...` (the `.` class cannot cross a
newline). -/
def skipColonSearch : List Char → Bool
  | [] => false
  | c :: cs =>
    if c = '\n' then false
    else (if c = ':' then skipTailAt (c :: cs) else false) || skipColonSearch cs

/-- Match the skip pattern
`Row\s+\d+\s+SKIP\b.*?:\s+([^\s\|]+)(?:\|[^\s]+)?\s+-` at the head of `cs`. -/
def matchSkipAt (cs : List Char) : Bool :=
  match (do
    let cs ← eatRowPrefix cs
    eatLit "SKIP" cs) with
  | none => false
  | some rest =>
    (match rest with
     | [] => true
     | c :: _ => !isWordChar c) && skipColonSearch rest

/-- Match the error pattern at the head of `cs`: it is `Row\s+\d+\s+ERROR\b`
followed by a lazy `.*?` and an optional capture group for the folder name;
both tails can match the empty string, so the pattern matches exactly when
`Row\s+\d+\s+ERROR\b` does. -/
def matchErrorAt (cs : List Char) : Bool :=
  match (do
    let cs ← eatRowPrefix cs
    eatLit "ERROR" cs) with
  | none => false
  | some rest =>
    match rest with
    | [] => true
    | c :: _ => !isWordChar c

/-- An unanchored `line.match(...)` search. -/
def matchAnywhere (p : List Char → Bool) (line : String) : Bool :=
  (List.range (line.data.length + 1)).any fun i => p (line.data.drop i)

def successMatch (line : String) : Bool := matchAnywhere matchSuccessAt line
def skipMatch (line : String) : Bool := matchAnywhere matchSkipAt line
def errorMatch (line : String) : Bool := matchAnywhere matchErrorAt line

def digitsToNat (ds : List Char) : Nat :=
  ds.foldl (fun n c => n * 10 + (c.toNat - 48)) 0

/-- Match `/Processing\s+(\d+)\s+participants/` at the head of `cs`,
returning the captured number. -/
def markerAt (cs : List Char) : Option Nat := do
  let cs ← eatLit "Processing" cs
  let cs ← eatPlus jsIsSpace cs
  let digits := cs.takeWhile jsIsDigit
  if digits.isEmpty then none
  else do
    let cs ← eatPlus jsIsSpace (cs.dropWhile jsIsDigit)
    let _ ← eatLit "participants" cs
    some (digitsToNat digits)

/-- First `Processing N participants` match of the line. -/
def findMarker : List Char → Option Nat
  | [] => none
  | c :: cs =>
    match markerAt (c :: cs) with
    | some n => some n
    | none => findMarker cs

/-- The per-line accumulator of `parseLogFile`: the three counters, the
`processed` sum, and the last marker's `totalParticipants`. -/
structure ParseState where
  success : Nat
  skip : Nat
  error : Nat
  processed : Nat
  total : Nat
deriving DecidableEq, Repr

def initialParseState : ParseState := ⟨0, 0, 0, 0, 0⟩

/-- One line of the parsing loop (certificate-monitor.js lines 199–245): the
`if/else` outcome chain, then the independent marker check. -/
def parseLine (st : ParseState) (line : String) : ParseState :=
  let st :=
    if successMatch line then
      { st with success := st.success + 1, processed := st.processed + 1 }
    else if skipMatch line then
      { st with skip := st.skip + 1, processed := st.processed + 1 }
    else if errorMatch line then
      { st with error := st.error + 1, processed := st.processed + 1 }
    else st
  if jsIncludes line "Processing" && jsIncludes line "participants" then
    match findMarker line.data with
    | some n => { st with total := n }
    | none => st
  else st

/-- The monitor's reconstructed view of one worker (the fields of the claims:
lifecycle status and the `processed/total` progress string). -/
structure WorkerView where
  status : String
  progress : String
  counts : ParseState
deriving DecidableEq, Repr

/-- The accumulated counters over the whole file: the content is split on
newlines and blank lines are dropped (`.filter(line => line.trim())`). -/
def parsedState (lines : List String) : ParseState :=
  (lines.filter fun l => jsTrim l ≠ "").foldl parseLine initialParseState

/-- The reconstruction `parseLogFile` (lines 178–264) on the full file content already split
into lines; `fresh` stands for `(now - stat.mtimeMs) < 15000`. -/
def parseLogFile (lines : List String) (fresh : Bool) : WorkerView :=
  let st := parsedState lines
  let status :=
    if st.total > 0 then
      if st.processed < st.total then "RUNNING" else "COMPLETED"
    else if st.processed > 0 then
      if fresh then "RUNNING" else "COMPLETED"
    else
      if fresh then "RUNNING" else "IDLE"
  let progress :=
    if st.total > 0 then Nat.repr st.processed ++ "/" ++ Nat.repr st.total
    else Nat.repr st.processed
  ⟨status, progress, st⟩

/-! ## Concrete instances used by witnesses and counterexamples -/

/-- A record whose name trims to the empty string, for the C3 counterexample. -/
def pBlankName : Participant := ⟨2, "   ", "x@gmail.com", "", "", "", ""⟩

/-- A concrete worker environment for counterexamples and witnesses. -/
def envA : Env := {
  mapping := some [("Budi Santoso", "FID1")]
  parentFolderId := ""
  dryRun := false
  shardTotal := 0, shardIndex := 0, maxPerRun := 300
  globalOracle := fun _ _ => .error ⟨some 500, [], "boom"⟩
  childOracle := fun _ _ => .error ⟨some 500, [], "boom"⟩
  searchFuel := 8
  permOracle := fun _ => .ok [⟨"dup@gmail.com", "reader"⟩]
  permJit := fun _ => 0
  grantOracle := fun _ => .ok ()
  grantJit := fun _ => 0 }

/-- Two records that normalize to the same duplicate-detection key, for the
C8 counterexample; both carry a pre-resolved folder id. -/
def pdup1 : Participant := ⟨2, "Dewi", "dup@gmail.com", "F7", "", "", ""⟩

def pdup2 : Participant := ⟨3, "dewi", " Dup@Gmail.com ", "F7", "", "", ""⟩

/-- A worker log with a `Processing 10 participants` marker and six outcome
lines (3 grants/dry-runs, 1 skip, 2 errors), for the C9 witness. -/
def demoLog : List String :=
  ["[t] [INFO] Processing 10 participants. parentFolderId=root",
   "[t] [INFO] Row 1 GRANTED reader -> a@gmail.com - Time: 5ms",
   "[t] [INFO] Row 2 GRANTED reader -> b@gmail.com - Time: 5ms",
   "[t] [INFO] Row 3 DRY_RUN reader -> c@gmail.com - Time: 5ms",
   "[t] [INFO] Row 4 SKIP INVALID EMAIL FORMAT: x@y - Time: 3ms",
   "[t] [INFO] Row 5 ERROR folder not found - Time: 9ms",
   "[t] [INFO] Row 6 ERROR: boom - Time: 9ms"]

/-! ## Helper lemmas -/

theorem mem_of_mem_prioritize {q : Participant} {ps : List Participant}
    (h : q ∈ prioritize ps) : q ∈ ps := by
  unfold prioritize at h
  simp only [List.mem_append, List.mem_filter] at h
  rcases h with (h | h) | h <;> exact h.1

theorem mem_of_mem_applySharding {q : Participant} {t i : Nat} {ps : List Participant}
    (h : q ∈ applySharding t i ps) : q ∈ ps := by
  unfold applySharding at h
  by_cases ht : t > 0
  · simp only [ht, if_pos] at h
    exact (List.mem_filter.mp h).1
  · simpa [ht] using h

theorem mem_pipeline_elim {q : Participant} {t i mx : Nat} {ps : List Participant}
    (h : q ∈ pipeline t i mx ps) :
    q ∈ normalizedOf ps ∧ statusGate q = true := by
  unfold pipeline at h
  have h1 : q ∈ prioritize (applySharding t i (statusFiltered ps)) :=
    List.mem_of_mem_take h
  have h2 : q ∈ statusFiltered ps :=
    mem_of_mem_applySharding (mem_of_mem_prioritize h1)
  exact List.mem_filter.mp h2

/-! ## C1: sharding slot assignment -/

/-- Claim C1: for every key `k` and shard count `n > 0`, `hashKey(k) mod n`
is a deterministic function of `k` and the slot lies in `[0, n)`; when the
shard total is `0` the partition filter is not applied and the full record
set is processed. -/
theorem owningSlot_range_and_disable (k : String) (n : Nat) (hn : 0 < n) :
    owningSlot k n < n ∧
    (∀ k2, k2 = k → owningSlot k2 n = owningSlot k n) ∧
    (∀ i ps, applySharding 0 i ps = ps) := by
  refine ⟨Nat.mod_lt _ hn, fun k2 hk => by rw [hk], fun i ps => ?_⟩
  simp [applySharding]

theorem owningSlot_range_and_disable_witness :
    0 < 3 ∧
      (owningSlot "abc" 3 < 3 ∧
       (∀ k2, k2 = "abc" → owningSlot k2 3 = owningSlot "abc" 3) ∧
       (∀ i ps, applySharding 0 i ps = ps)) :=
  ⟨by decide, owningSlot_range_and_disable "abc" 3 (by decide)⟩

/-! ## C2: tri-state eligibility gate -/

/-- Claim C2: the batch processor admits a record iff the lowercased
`isShared` value is neither `"true"` nor `"false"`, and a record whose
status is `"true"`/`"false"` (any case) never reaches the sharding and
prioritization stages of the cycle. -/
theorem statusGate_filter_spec :
    (∀ ps p, p ∈ statusFiltered ps ↔
      p ∈ normalizedOf ps ∧ jsToLower p.isShared ≠ "true" ∧ jsToLower p.isShared ≠ "false") ∧
    (∀ t i mx ps q, q ∈ pipeline t i mx ps →
      jsToLower q.isShared ≠ "true" ∧ jsToLower q.isShared ≠ "false") := by
  constructor
  · intro ps p
    unfold statusFiltered
    rw [List.mem_filter]
    unfold statusGate
    simp
  · intro t i mx ps q hq
    have h := (mem_pipeline_elim hq).2
    unfold statusGate at h
    simpa using h

theorem statusGate_filter_spec_witness :
    (⟨2, "A", "a@gmail.com", "", "TRUE", "", ""⟩ : Participant) ∈
        normalizedOf [⟨2, "A", "a@gmail.com", "", "TRUE", "", ""⟩] ∧
    (⟨2, "A", "a@gmail.com", "", "TRUE", "", ""⟩ : Participant) ∉
        statusFiltered [⟨2, "A", "a@gmail.com", "", "TRUE", "", ""⟩] := by
  have h := (statusGate_filter_spec.1 [⟨2, "A", "a@gmail.com", "", "TRUE", "", ""⟩]
    ⟨2, "A", "a@gmail.com", "", "TRUE", "", ""⟩)
  refine ⟨by decide, fun hmem => ?_⟩
  have := (h.mp hmem).2.1
  exact this (by decide)

/-! ## C3: empty name/email after trimming -/

/-- Counterexample to claim C3 as stated: a record whose name trims to the
empty string is silently dropped by the normalization filter — the cycle
produces no outcome for it at all, so no `SKIPPED[invalid-format]` status or
last-log write is persisted. -/
theorem blankName_no_outcome_cex :
    jsTrim pBlankName.nama = "" ∧ processCycle envA [pBlankName] = [] :=
  ⟨rfl, rfl⟩

/-- Claim C3 as amended: a record whose name or email is empty after trimming
is excluded from the working set by the normalization filter before
processing, so it never reaches the resolution step and no outcome (and no
status or last-log write) is recorded for it; every record that is processed
has a non-empty trimmed name and email. -/
theorem blankName_never_processed (t i mx : Nat) (ps : List Participant)
    (q : Participant) (hq : q ∈ pipeline t i mx ps) :
    q.nama ≠ "" ∧ q.email ≠ "" := by
  have h := (mem_pipeline_elim hq).1
  unfold normalizedOf at h
  have h2 := (List.mem_filter.mp h).2
  simpa using h2

theorem blankName_never_processed_witness :
    (⟨2, "A", "a@gmail.com", "", "", "", ""⟩ : Participant) ∈
        pipeline 0 0 300 [⟨2, "A", "a@gmail.com", "", "", "", ""⟩] ∧
    (⟨2, "A", "a@gmail.com", "", "", "", ""⟩ : Participant).nama ≠ "" ∧
    (⟨2, "A", "a@gmail.com", "", "", "", ""⟩ : Participant).email ≠ "" :=
  ⟨by decide, blankName_never_processed 0 0 300
    [⟨2, "A", "a@gmail.com", "", "", "", ""⟩]
    ⟨2, "A", "a@gmail.com", "", "", "", ""⟩ (by decide)⟩

/-! ## C4: grantPermission retry ceiling and backoff -/

/-- Under an oracle that always fails with a retryable error, the retry loop
issues exactly `r + 1` calls, sleeps the capped exponential backoff plus
jitter between consecutive calls, and ends with the last error. -/
theorem retryGo_allRetryable {α : Type} (oracle : Nat → Except ApiError α)
    (es : Nat → ApiError) (cap : Nat) (jit : Nat → Nat)
    (h1 : ∀ i, oracle i = .error (es i))
    (h2 : ∀ i, isRetryableRateLimit (es i) = true) :
    ∀ r a, retryGo oracle cap jit (r + 1) a =
      (r + 1,
       (List.range r).map (fun k => min cap (2 ^ (a + k + 1) * 1000) + jit (a + k + 1)),
       .error (es (a + r))) := by
  intro r
  induction r with
  | zero => intro a; simp [retryGo, h1 a]
  | succ s ih =>
    intro a
    have hrec := ih (a + 1)
    rw [retryGo, h1 a]
    simp only [h2 a, Nat.zero_lt_succ, decide_eq_true_eq]
    rw [if_pos (by simp)]
    rw [hrec]
    refine Prod.ext rfl (Prod.ext ?_ ?_)
    · show (cap ⊓ 2 ^ (a + 1) * 1000 + jit (a + 1)) ::
        List.map (fun k => cap ⊓ 2 ^ (a + 1 + k + 1) * 1000 + jit (a + 1 + k + 1)) (List.range s) =
        List.map (fun k => cap ⊓ 2 ^ (a + k + 1) * 1000 + jit (a + k + 1)) (List.range (s + 1))
      rw [List.range_succ_eq_map, List.map_cons, List.map_map]
      refine congrArg₂ _ (by norm_num) ?_
      apply List.map_congr_left
      intro k _
      have : a + 1 + k + 1 = a + (k + 1) + 1 := by omega
      simp [Function.comp, this]
    · show Except.error (es (a + 1 + s)) = Except.error (es (a + (s + 1)))
      have : a + 1 + s = a + (s + 1) := by omega
      rw [this]

/-- A non-retryable first error ends the loop after the one failing call,
with no backoff sleep. -/
theorem retryGo_nonRetryable {α : Type} (oracle : Nat → Except ApiError α)
    (e0 : ApiError) (cap r : Nat) (jit : Nat → Nat)
    (h : oracle 0 = .error e0) (h2 : isRetryableRateLimit e0 = false) :
    retryGo oracle cap jit (r + 1) 0 = (1, [], .error e0) := by
  simp [retryGo, h, h2]

/-- Claim C4: when every `permissions.create` call fails with a retryable
error (HTTP 429, or 403 with a rate-limit reason), `grantPermission` attempts
the call exactly 6 times, sleeping `min(60 s, 2^attempt s)` plus a jitter
below 500 ms between attempts, and then propagates the error tagged with the
operation name and its `{ fileId, email, role }` context; a non-retryable
error propagates immediately after the failing attempt, with no backoff sleep
and no further attempts. -/
theorem grantPermission_retry_spec :
    (∀ (oracle : Nat → Except ApiError Unit) (es : Nat → ApiError) (jit : Nat → Nat)
        (fileId email : String),
      (∀ i, oracle i = .error (es i)) →
      (∀ i, isRetryableRateLimit (es i) = true) →
      (∀ i, jit i < 500) →
      (grantPermission false oracle jit fileId email).calls = 6 ∧
      (grantPermission false oracle jit fileId email).sleeps =
        (List.range 5).map (fun k => min 60000 (2 ^ (k + 1) * 1000) + jit (k + 1)) ∧
      (∀ k s, (grantPermission false oracle jit fileId email).sleeps.get? k = some s →
        s < min 60000 (2 ^ (k + 1) * 1000) + 500) ∧
      (grantPermission false oracle jit fileId email).result =
        .error ⟨"drive.permissions.create", fileId, email, "reader", es 5⟩) ∧
    (∀ (oracle : Nat → Except ApiError Unit) (e0 : ApiError) (jit : Nat → Nat)
        (fileId email : String),
      oracle 0 = .error e0 → isRetryableRateLimit e0 = false →
      grantPermission false oracle jit fileId email =
        ⟨1, [], .error ⟨"drive.permissions.create", fileId, email, "reader", e0⟩⟩) := by
  constructor
  · intro oracle es jit fileId email h1 h2 hj
    have hrun := retryGo_allRetryable oracle es 60000 jit h1 h2 5 0
    simp only [Nat.zero_add] at hrun
    refine ⟨?_, ?_, ?_, ?_⟩
    · simp [grantPermission, hrun]
    · simp [grantPermission, hrun]
    · intro k s hks
      have hsleeps : (grantPermission false oracle jit fileId email).sleeps =
          (List.range 5).map (fun k => min 60000 (2 ^ (k + 1) * 1000) + jit (k + 1)) := by
        simp [grantPermission, hrun]
      rw [hsleeps] at hks
      rcases Nat.lt_or_ge k 5 with hk | hk
      · rw [List.get?_map, List.get?_range hk] at hks
        simp only [Option.map_some', Option.some.injEq] at hks
        exact hks ▸ Nat.add_lt_add_left (hj (k + 1)) _
      · rw [List.get?_eq_none.mpr (by simpa using hk)] at hks
        cases hks
    · simp [grantPermission, hrun]
  · intro oracle e0 jit fileId email h h2
    have hrun := retryGo_nonRetryable oracle e0 60000 5 jit h h2
    simp [grantPermission, hrun]

theorem grantPermission_retry_spec_witness :
    (grantPermission false (fun _ => .error ⟨some 429, [], "rate"⟩) (fun _ => 7)
      "F" "m@gmail.com").calls = 6 ∧
    (grantPermission false (fun _ => .error ⟨some 429, [], "rate"⟩) (fun _ => 7)
      "F" "m@gmail.com").sleeps = [2007, 4007, 8007, 16007, 32007] ∧
    grantPermission false (fun _ => .error ⟨some 500, [], "x"⟩) (fun _ => 7)
      "F" "m@gmail.com" =
      ⟨1, [], .error ⟨"drive.permissions.create", "F", "m@gmail.com", "reader",
        ⟨some 500, [], "x"⟩⟩⟩ := by
  obtain ⟨hc, hs, _, _⟩ := grantPermission_retry_spec.1
    (fun _ => .error ⟨some 429, [], "rate"⟩) (fun _ => ⟨some 429, [], "rate"⟩)
    (fun _ => 7) "F" "m@gmail.com" (fun _ => rfl) (fun _ => rfl)
    (fun _ => show (7 : Nat) < 500 by decide)
  have h2 := grantPermission_retry_spec.2
    (fun _ => .error ⟨some 500, [], "x"⟩) ⟨some 500, [], "x"⟩
    (fun _ => 7) "F" "m@gmail.com" rfl rfl
  exact ⟨hc, by rw [hs]; rfl, h2⟩

/-! ## C10: hasPermission swallows failures -/

/-- Claim C10: `hasPermission` never propagates an error to its caller: it
returns a boolean, a non-retryable failure yields `false` after the single
failing call, exhaustion of its 5 retry attempts yields `false` after exactly
5 calls, and consequently a participant that reaches the permission check
with a failing check proceeds to the grant step (`grantPermission` is
entered) rather than recording a per-record error. -/
theorem hasPermission_swallows_failures :
    (∀ (oracle : Nat → Except ApiError (List Perm)) (jit : Nat → Nat)
        (email role : String) (e0 : ApiError),
      oracle 0 = .error e0 → isRetryableRateLimit e0 = false →
      hasPermission oracle jit email role = ⟨false, 1⟩) ∧
    (∀ (oracle : Nat → Except ApiError (List Perm)) (es : Nat → ApiError)
        (jit : Nat → Nat) (email role : String),
      (∀ i, oracle i = .error (es i)) →
      (∀ i, isRetryableRateLimit (es i) = true) →
      hasPermission oracle jit email role = ⟨false, 5⟩) ∧
    (∀ (env : Env) (seen : List String) (p : Participant) (fid : String),
      emailRegexTest p.email = true → isGmail p.email = true →
      seen.contains (dedupKey p) = false →
      (p.isShared ≠ "" && jsToLower p.isShared == "true") = false →
      (resolveFolder env p).1 = some fid →
      (hasPermission env.permOracle env.permJit p.email "reader").result = false →
      (processOne env seen p).grantInvoked = true) := by
  refine ⟨?_, ?_, ?_⟩
  · intro oracle jit email role e0 h h2
    have hrun := retryGo_nonRetryable oracle e0 60000 4 jit h h2
    simp [hasPermission, hrun]
  · intro oracle es jit email role h1 h2
    have hrun := retryGo_allRetryable oracle es 60000 jit h1 h2 4 0
    simp [hasPermission, hrun]
  · intro env seen p fid hv hg hd hgate hres hperm
    unfold processOne
    rw [hv, hg]
    simp only [Bool.and_self, Bool.not_true, Bool.false_eq_true, if_false]
    rw [hd]
    simp only [Bool.false_eq_true, if_false]
    rw [hgate]
    simp only [Bool.false_eq_true, if_false]
    rw [hres]
    simp only [hperm, Bool.false_eq_true, if_false]
    rcases hgr : (grantPermission env.dryRun env.grantOracle env.grantJit fid p.email).result
      with _ | _ <;> simp [hgr]

theorem hasPermission_swallows_failures_witness :
    hasPermission (fun _ => .error ⟨some 500, [], "x"⟩) (fun _ => 0) "a@gmail.com" "reader"
        = ⟨false, 1⟩ ∧
    hasPermission (fun _ => .error ⟨some 429, [], "rate"⟩) (fun _ => 0) "a@gmail.com" "reader"
        = ⟨false, 5⟩ :=
  ⟨hasPermission_swallows_failures.1 (fun _ => .error ⟨some 500, [], "x"⟩) (fun _ => 0)
      "a@gmail.com" "reader" ⟨some 500, [], "x"⟩ rfl rfl,
   hasPermission_swallows_failures.2.1 (fun _ => .error ⟨some 429, [], "rate"⟩)
      (fun _ => ⟨some 429, [], "rate"⟩) (fun _ => 0) "a@gmail.com" "reader"
      (fun _ => rfl) (fun _ => rfl)⟩

/-! ## C7: already-granted idempotence -/

/-- Claim C7: a record that reaches the permission check and whose resolved
folder already lists a matching permission (case-insensitive email, intended
role) gets the already-has-access skip outcome, has the success status
`isShared = TRUE` persisted, and the `permissions.create` call is never
issued. -/
theorem already_has_access_spec (env : Env) (seen : List String) (p : Participant)
    (fid : String)
    (hv : emailRegexTest p.email = true) (hg : isGmail p.email = true)
    (hd : seen.contains (dedupKey p) = false)
    (hgate : (p.isShared ≠ "" && jsToLower p.isShared == "true") = false)
    (hres : (resolveFolder env p).1 = some fid)
    (hperm : (hasPermission env.permOracle env.permJit p.email "reader").result = true) :
    (processOne env seen p).outcome = .skipAlreadyHas ∧
    SheetWrite.isSharedW "TRUE" ∈ (processOne env seen p).writes ∧
    (processOne env seen p).grantInvoked = false ∧
    (processOne env seen p).grantApiCalls = 0 := by
  unfold processOne
  rw [hv, hg]
  simp only [Bool.and_self, Bool.not_true, Bool.false_eq_true, if_false]
  rw [hd]
  simp only [Bool.false_eq_true, if_false]
  rw [hgate]
  simp only [Bool.false_eq_true, if_false]
  rw [hres]
  simp [hperm]

theorem already_has_access_spec_witness :
    (processOne envA [] ⟨2, "Dewi", "dup@gmail.com", "F7", "", "", ""⟩).outcome
        = .skipAlreadyHas ∧
    SheetWrite.isSharedW "TRUE" ∈
        (processOne envA [] ⟨2, "Dewi", "dup@gmail.com", "F7", "", "", ""⟩).writes ∧
    (processOne envA [] ⟨2, "Dewi", "dup@gmail.com", "F7", "", "", ""⟩).grantInvoked = false ∧
    (processOne envA [] ⟨2, "Dewi", "dup@gmail.com", "F7", "", "", ""⟩).grantApiCalls = 0 :=
  already_has_access_spec envA [] ⟨2, "Dewi", "dup@gmail.com", "F7", "", "", ""⟩ "F7"
    (by decide) (by decide) (by decide) (by decide) (by decide) (by decide)

/-! ## C5: verbatim cache hits -/

/-- Counterexample to claim C5 as stated: the empty string can be present
verbatim as a key of the loaded mapping, yet `findFolderByName` returns null
for it without consulting the mapping, because the truthiness guard
`if (!targetName) return null` fires first.  (Likewise a key mapped to the
empty — falsy — identifier would fall through to the fallback.) -/
theorem mapping_verbatim_key_cex :
    List.lookup "" [("", "FID")] = some "FID" ∧
    findFolderByName (some [("", "FID")]) (fun _ _ => .error ⟨some 500, [], "x"⟩)
      (fun _ _ => .error ⟨some 500, [], "x"⟩) "" "" 5 = (none, false) :=
  ⟨rfl, rfl⟩

/-- Claim C5 as amended: for every non-empty name present verbatim as a key
of the loaded mapping and mapped to a non-empty identifier,
`findFolderByName` returns that identifier and does not invoke the API-search
fallback. -/
theorem mapping_exact_hit_no_fallback (m : List (String × String)) (name id : String)
    (globalOracle childOracle : Nat → String → Except ApiError (List DFolder))
    (parent : String) (fuel : Nat)
    (hname : name ≠ "") (hid : id ≠ "") (hlook : m.lookup name = some id) :
    findFolderByName (some m) globalOracle childOracle name parent fuel =
      (some id, false) := by
  have hjs : jsLookup m name = id := by unfold jsLookup; rw [hlook]
  have hml : mappingLookup m name = id := by
    unfold mappingLookup
    rw [hjs, if_pos hid]
  simp [findFolderByName, hname, hml, hid]

theorem mapping_exact_hit_no_fallback_witness :
    findFolderByName (some [("Budi", "F1")]) (fun _ _ => .error ⟨some 500, [], "x"⟩)
      (fun _ _ => .error ⟨some 500, [], "x"⟩) "Budi" "" 5 = (some "F1", false) :=
  mapping_exact_hit_no_fallback [("Budi", "F1")] "Budi" "F1"
    (fun _ _ => .error ⟨some 500, [], "x"⟩) (fun _ _ => .error ⟨some 500, [], "x"⟩)
    "" 5 (by decide) (by decide) (by decide)

/-! ## C6: resolver totality and timeout behaviour -/

theorem globalTermsLoop_no_error (gOracle : Nat → String → Except ApiError (List DFolder))
    (targetLower : String) :
    ∀ (ts : List String) (fuel calls : Nat) (e : ApiError),
      globalTermsLoop gOracle targetLower ts fuel calls ≠ some (.error e) := by
  intro ts
  induction ts with
  | nil => intro fuel calls e h; simp [globalTermsLoop] at h
  | cons t ts ih =>
    intro fuel calls e h
    unfold globalTermsLoop at h
    rcases htl : globalTermLoop gOracle targetLower t 0 fuel calls with _ | ⟨r, fuel2, calls2⟩
    · rw [htl] at h; cases h
    · rw [htl] at h
      rcases r with _ | id
      · exact ih fuel2 calls2 e h
      · cases h

theorem bfsGo_no_error (cOracle : Nat → String → Except ApiError (List DFolder))
    (targetLower : String) :
    ∀ (fuel : Nat) (queue : List (String × Nat)) (calls : Nat) (e : ApiError),
      bfsGo cOracle targetLower fuel queue calls ≠ some (.error e) := by
  intro fuel
  induction fuel with
  | zero => intro queue calls e h; cases queue <;> simp [bfsGo] at h
  | succ f ih =>
    intro queue calls e h
    rcases queue with _ | ⟨⟨id, depth⟩, rest⟩
    · simp [bfsGo] at h
    · unfold bfsGo at h
      by_cases hd : depth > 3
      · rw [if_pos hd] at h
        exact ih rest calls e h
      · rw [if_neg hd] at h
        rcases ho : cOracle calls id with e2 | children
        · simp only [ho] at h
          by_cases hr : isRetryableRateLimit e2 = true
          · rw [if_pos hr] at h
            exact ih (rest ++ [(id, depth)]) (calls + 1) e h
          · rw [if_neg hr] at h
            exact ih rest (calls + 1) e h
        · simp only [ho] at h
          rcases hf : children.find? (fun f => jsToLower f.name == targetLower)
            with _ | hit
          · simp only [hf] at h
            exact ih _ (calls + 1) e h
          · simp only [hf] at h
            cases h

/-- Claim C6: for every name and optional scope root, the resolver returns a
folder identifier or not-found and never propagates an exception: the
internal search never ends in an uncaught error (every oracle failure is
consumed by a catch), a fallback search that is still running when the 30 s
timeout fires yields not-found rather than an error, and `findFolderByName`
always returns an identifier or `null`. -/
theorem resolver_total_spec
    (globalOracle childOracle : Nat → String → Except ApiError (List DFolder))
    (name parent : String) (fuel : Nat) :
    (∀ e, findFolderByNameInternal globalOracle childOracle name parent fuel ≠
      some (.error e)) ∧
    (findFolderByNameInternal globalOracle childOracle name parent fuel = none →
      findFolderByNameFallback globalOracle childOracle name parent fuel = none) ∧
    (∀ mapping,
      (findFolderByName mapping globalOracle childOracle name parent fuel).1 = none ∨
      ∃ id, (findFolderByName mapping globalOracle childOracle name parent fuel).1 =
        some id) := by
  refine ⟨?_, ?_, ?_⟩
  · intro e h
    unfold findFolderByNameInternal at h
    by_cases h1 : name = ""
    · rw [if_pos h1] at h; cases h
    · rw [if_neg h1] at h
      by_cases h2 : parent = ""
      · rw [if_pos h2] at h
        exact globalTermsLoop_no_error globalOracle (jsToLower name) _ fuel 0 e h
      · rw [if_neg h2] at h
        exact bfsGo_no_error childOracle (jsToLower name) fuel [(parent, 0)] 0 e h
  · intro h
    unfold findFolderByNameFallback
    rw [h]
  · intro mapping
    rcases hr : (findFolderByName mapping globalOracle childOracle name parent fuel).1
      with _ | id
    · exact Or.inl rfl
    · exact Or.inr ⟨id, rfl⟩

theorem resolver_total_spec_witness :
    findFolderByNameInternal (fun _ _ => .error ⟨some 429, [], "r"⟩)
      (fun _ _ => .error ⟨some 429, [], "r"⟩) "budi" "ROOT" 3 = none ∧
    findFolderByNameFallback (fun _ _ => .error ⟨some 429, [], "r"⟩)
      (fun _ _ => .error ⟨some 429, [], "r"⟩) "budi" "ROOT" 3 = none :=
  ⟨rfl,
   (resolver_total_spec (fun _ _ => .error ⟨some 429, [], "r"⟩)
      (fun _ _ => .error ⟨some 429, [], "r"⟩) "budi" "ROOT" 3).2.1 rfl⟩

/-! ## C8: per-record side-effect writes -/

theorem processCycleGo_length (env : Env) :
    ∀ (l : List Participant) (seen : List String),
      (processCycleGo env l seen).length = l.length := by
  intro l
  induction l with
  | nil => intro seen; rfl
  | cons p rest ih => intro seen; simp [processCycleGo, ih]

/-- Counterexample to claim C8 as stated: the duplicate-skip branch attempts
only the last-log write — no status-column write — so not every outcome
attempts all three writes. -/
theorem duplicate_skip_no_status_cex :
    (processCycle envA [pdup1, pdup2]).map (fun r => r.outcome) =
      [.skipAlreadyHas, .skipDuplicate] ∧
    (processCycle envA [pdup1, pdup2]).map (fun r => r.writes) =
      [[.isFolderExistsW "TRUE", .isSharedW "TRUE",
        .lastLogW (.skipAlreadyHas "reader"), .isSharedW "TRUE"],
       [.lastLogW .skipDuplicate]] ∧
    (∀ v, SheetWrite.isSharedW v ∉ [SheetWrite.lastLogW LogMsg.skipDuplicate]) :=
  ⟨rfl, rfl, by intro v h; simp at h⟩

/-- Claim C8 as amended: for every record processed, whatever the outcome,
the last-log column write and exactly one worker-log-file line are always
attempted; the status-column (`isShared`) write is additionally attempted
exactly for the invalid-email skip, already-has-access skip, grant/dry-run
and error outcomes (the duplicate skip and already-shared skip write only the
last-log column, and the folder-not-found branch writes the folder-exists
column instead).  The attempted writes are independent — `updateCell` is
best-effort, so which writes physically succeed does not change which writes
are attempted — and no per-record outcome aborts the cycle. -/
theorem per_record_writes_spec :
    (∀ (env : Env) (seen : List String) (p : Participant),
      (processOne env seen p).writes.any isLastLogW = true ∧
      (processOne env seen p).logCount = 1 ∧
      (processOne env seen p).writes.any isStatusW =
        statusOutcome (processOne env seen p).outcome) ∧
    (∀ (ws : List SheetWrite) (ok : Nat → Bool),
      (attemptWrites ws ok).map Prod.fst = ws ∧
      (attemptWrites ws ok).length = ws.length) ∧
    (∀ (env : Env) (ps : List Participant),
      (processCycle env ps).length =
        (pipeline env.shardTotal env.shardIndex env.maxPerRun ps).length) := by
  refine ⟨?_, ?_, ?_⟩
  · intro env seen p
    unfold processOne
    rcases h1 : (!(emailRegexTest p.email && isGmail p.email)) with _ | _
    · rcases h2 : seen.contains (dedupKey p) with _ | _
      · have h2m : dedupKey p ∉ seen := by simpa using h2
        rcases h3 : (p.isShared ≠ "" && jsToLower p.isShared == "true") with _ | _
        · rcases h4 : (resolveFolder env p).1 with _ | fid
          · simp [h1, h2m, h3, h4, isLastLogW, isStatusW, statusOutcome]
          · rcases h5 : (hasPermission env.permOracle env.permJit p.email "reader").result
              with _ | _
            · rcases h7 :
                (grantPermission env.dryRun env.grantOracle env.grantJit fid p.email).result
                with we | u
              · by_cases h6 : p.folderId = "" <;>
                  simp [h1, h2m, h3, h4, h5, h7, h6, isLastLogW, isStatusW, statusOutcome]
              · cases hdr : env.dryRun <;> rw [hdr] at h7 <;>
                  by_cases h6 : p.folderId = "" <;>
                  simp [h1, h2m, h3, h4, h5, h7, h6, hdr, isLastLogW, isStatusW, statusOutcome]
            · by_cases h6 : p.folderId = "" <;>
                simp [h1, h2m, h3, h4, h5, h6, isLastLogW, isStatusW, statusOutcome]
        · simp [h1, h2m, h3, isLastLogW, isStatusW, statusOutcome]
      · have h2t : dedupKey p ∈ seen := by simpa using h2
        simp [h1, h2t, isLastLogW, isStatusW, statusOutcome]
    · simp [h1, isLastLogW, isStatusW, statusOutcome]
  · intro ws ok
    constructor
    · simp only [attemptWrites, List.map_map]
      have : (Prod.fst ∘ fun wi : Nat × SheetWrite => (wi.2, ok wi.1)) =
          Prod.snd := by
        funext wi; rfl
      rw [this, List.enum_map_snd]
    · simp [attemptWrites]
  · intro env ps
    exact processCycleGo_length env _ []

theorem per_record_writes_spec_witness :
    (processOne envA [] pdup1).writes.any isLastLogW = true ∧
    (processOne envA [] pdup1).logCount = 1 ∧
    (processOne envA [] pdup1).writes.any isStatusW =
      statusOutcome (processOne envA [] pdup1).outcome :=
  per_record_writes_spec.1 envA [] pdup1

/-! ## C9: monitor status reconstruction -/

/-- Claim C9: for a log whose content carries a `Processing N participants`
marker with `N > 0`, the monitor reports `RUNNING` exactly when the number of
parsed outcome lines is below `N` and `COMPLETED` otherwise, with progress
rendered as `processed/N`. -/
theorem parseLogFile_marker_spec (lines : List String) (fresh : Bool) (n : Nat)
    (hN : (parsedState lines).total = n) (hpos : 0 < n) :
    (parseLogFile lines fresh).status =
      (if (parsedState lines).processed < n then "RUNNING" else "COMPLETED") ∧
    (parseLogFile lines fresh).progress =
      Nat.repr (parsedState lines).processed ++ "/" ++ Nat.repr n := by
  unfold parseLogFile
  simp [hN, hpos]

theorem parseLogFile_marker_spec_witness :
    (parseLogFile demoLog true).status = "RUNNING" ∧
    (parseLogFile demoLog true).progress = "6/10" := by
  have h := parseLogFile_marker_spec demoLog true 10 (by rfl) (by decide)
  exact ⟨h.1.trans (by rfl), h.2.trans (by rfl)⟩

end CertShare
